import Mathlib

/-!
Verification of the chromaflow color pipeline (src/chromaflow.py).

The reusable core of the program is embedded shallowly:

* `hex_to_hsl` (chromaflow.py lines 401-406) parses a hex color string and
  converts it to HSL integers via `colorsys.rgb_to_hls`.  Python floats are
  idealised as exact rationals (`ℚ`); Python's `round` (round-half-to-even,
  returning `int`) is `pyRound`, and the `% 1.0` reduction is `pyMod1`.
  A failing `int(s, 16)` call (Python `ValueError`) is modelled as `none`.
* the theme-parameter derivation in `main` (lines 543-546) is `derive`:
  hue passes through, saturation is `min(max(s, 30), 100)`.
* `ThemeManager.update_colors` (lines 415-428) is modelled on an explicit
  JSON value type: the parsed configuration object has its "colors" key
  replaced by the freshly built extracted-color object.

`pyHexInt?` models Python `int(s, 16)` on plain hexadecimal numerals
(the digit strings that actually arise from slicing a color string);
Python's additional tolerance for surrounding whitespace, an explicit
sign, a `0x` marker and underscore separators is not modelled.  Likewise,
division by zero returns 0 in `ℚ` where CPython would raise
`ZeroDivisionError` (reachable in `rgb_to_hls` only through a negative
parsed channel, hence never from plain hex digits).  Both idealisations
are exact on the 6-hex-digit inputs the universally quantified theorems
below range over; no theorem in this file quantifies over inputs where
they diverge from CPython.
-/

namespace Chromaflow

/-- The value of one hexadecimal digit character, as accepted by Python
`int(-, 16)`: decimal digits (code points 48-57), lowercase `a`-`f`
(97-102) and uppercase `A`-`F` (65-70). -/
def hexDigit? (c : Char) : Option Nat :=
  let n := c.toNat
  if 48 ≤ n ∧ n ≤ 57 then some (n - 48)
  else if 97 ≤ n ∧ n ≤ 102 then some (n - 97 + 10)
  else if 65 ≤ n ∧ n ≤ 70 then some (n - 65 + 10)
  else none

/-- Whether a character is a hexadecimal digit. -/
def isHexCh (c : Char) : Bool := (hexDigit? c).isSome

/-- Accumulator loop for `pyHexInt?`. -/
def pyHexIntAux : Nat → List Char → Option Nat
  | acc, [] => some acc
  | acc, c :: rest =>
    match hexDigit? c with
    | some d => pyHexIntAux (16 * acc + d) rest
    | none => none

/-- Python `int(s, 16)` on a plain hexadecimal numeral: `none` on the empty
string or on any non-digit character (Python raises `ValueError` there). -/
def pyHexInt? (s : List Char) : Option Nat :=
  match s with
  | [] => none
  | _ => pyHexIntAux 0 s

/-- Python slice `s[i : i+2]`. -/
def slice2 (s : List Char) (i : Nat) : List Char := (s.drop i).take 2

/-- Python `s.lstrip("#")`: remove every leading `'#'`. -/
def lstripHash : List Char → List Char
  | [] => []
  | c :: rest => if c = '#' then lstripHash rest else c :: rest

/-- Strip one optional leading `'#'` (the shape named by the spec's input
constraint `[#]RRGGBB`). -/
def stripOneHash (s : List Char) : List Char :=
  match s with
  | [] => []
  | c :: rest => if c = '#' then rest else c :: rest

/-- Python `round` on an exact rational: round half to even, to an `int`. -/
def pyRound (q : ℚ) : ℤ :=
  if q - (⌊q⌋ : ℚ) < 1 / 2 then ⌊q⌋
  else if (1 : ℚ) / 2 < q - (⌊q⌋ : ℚ) then ⌊q⌋ + 1
  else if ⌊q⌋ % 2 = 0 then ⌊q⌋ else ⌊q⌋ + 1

/-- Python `x % 1.0` for the hue reduction: the fractional part, in `[0, 1)`. -/
def pyMod1 (q : ℚ) : ℚ := q - (⌊q⌋ : ℚ)

/-- CPython `colorsys.rgb_to_hls`: channels in `[0,1]` to `(h, l, s)`. -/
def rgb_to_hls (r g b : ℚ) : ℚ × ℚ × ℚ :=
  let maxc := max r (max g b)
  let minc := min r (min g b)
  let sumc := maxc + minc
  let rangec := maxc - minc
  let l := sumc / 2
  if minc = maxc then (0, l, 0)
  else
    let s := if l ≤ 1 / 2 then rangec / sumc else rangec / (2 - sumc)
    let rc := (maxc - r) / rangec
    let gc := (maxc - g) / rangec
    let bc := (maxc - b) / rangec
    let hraw := if r = maxc then bc - gc
      else if g = maxc then 2 + rc - bc
      else 4 + gc - rc
    (pyMod1 (hraw / 6), l, s)

/-- The HSL integer triple produced by `hex_to_hsl`. -/
structure HSL where
  h : ℤ
  s : ℤ
  l : ℤ
deriving DecidableEq

/-- Body of `hex_to_hsl` after the `lstrip("#")`: parse the three slices,
normalise by 255, convert, scale and round. -/
def hex_to_hsl_core (hexColor : List Char) : Option HSL :=
  match pyHexInt? (slice2 hexColor 0), pyHexInt? (slice2 hexColor 2),
      pyHexInt? (slice2 hexColor 4) with
  | some rn, some gn, some bn =>
    let hls := rgb_to_hls ((rn : ℚ) / 255) ((gn : ℚ) / 255) ((bn : ℚ) / 255)
    some { h := pyRound (hls.1 * 360), s := pyRound (hls.2.2 * 100),
           l := pyRound (hls.2.1 * 100) }
  | _, _, _ => none

/-- `hex_to_hsl` (chromaflow.py lines 401-406). -/
def hex_to_hsl (hex_color : String) : Option HSL :=
  hex_to_hsl_core (lstripHash hex_color.data)

/-- The `{hue, saturation}` pair handed to the theme installer. -/
structure ThemeParameters where
  hue : ℤ
  saturation : ℤ
deriving DecidableEq

/-- The theme-parameter derivation of `main` (chromaflow.py lines 543-546):
`hue = hsl["h"]`, `saturation = min(max(hsl["s"], 30), 100)`. -/
def derive (hsl : HSL) : ThemeParameters :=
  { hue := hsl.h, saturation := min (max hsl.s 30) 100 }

/-- A JSON value, for the configuration file handled by
`ThemeManager.update_colors`. -/
inductive JValue where
  | null
  | bool (b : Bool)
  | num (q : ℚ)
  | str (s : String)
  | arr (elems : List JValue)
  | obj (fields : List (String × JValue))

/-- The value bound to key `k` in a JSON object's field list. -/
def dictGet : List (String × JValue) → String → Option JValue
  | [], _ => none
  | p :: rest, k => if p.1 = k then some p.2 else dictGet rest k

/-- Whether key `k` is bound in a JSON object's field list. -/
def hasKey : List (String × JValue) → String → Bool
  | [], _ => false
  | p :: rest, k => p.1 == k || hasKey rest k

/-- Replace every binding of key `k` in place. -/
def setAll : List (String × JValue) → String → JValue → List (String × JValue)
  | [], _, _ => []
  | p :: rest, k, v => (if p.1 = k then (k, v) else p) :: setAll rest k v

/-- Python `d[k] = v` on a JSON object's field list: overwrite in place when
the key is present, append otherwise. -/
def dictSet (fields : List (String × JValue)) (k : String) (v : JValue) :
    List (String × JValue) :=
  if hasKey fields k then setAll fields k v else fields ++ [(k, v)]

/-- The value written under "colors":
`{"extracted": {"h": hue, "s": saturation}}` (chromaflow.py lines 421-423). -/
def extractedObj (tv : ThemeParameters) : JValue :=
  .obj [("extracted", .obj [("h", .num (tv.hue : ℚ)), ("s", .num (tv.saturation : ℚ))])]

/-- `ThemeManager.update_colors` (chromaflow.py lines 415-428) on the parsed
configuration: assigning `marble_data["colors"]` requires the parsed JSON to
be an object; any failure is re-raised, modelled as `none`. -/
def update_colors (config : JValue) (theme_values : ThemeParameters) :
    Option JValue :=
  match config with
  | .obj fields => some (.obj (dictSet fields "colors" (extractedObj theme_values)))
  | _ => none

/-- The channel byte parsed at offset `i` of the `'#'`-stripped string. -/
def channel (s : String) (i : Nat) : Option Nat :=
  pyHexInt? (slice2 (lstripHash s.data) i)

/-- A valid hex color string per the spec: exactly 6 hexadecimal digits after
an optional leading `'#'`. -/
def ValidHexColor (s : String) : Prop :=
  (stripOneHash s.data).length = 6 ∧ ∀ c ∈ stripOneHash s.data, isHexCh c

instance (s : String) : Decidable (ValidHexColor s) := by
  unfold ValidHexColor; infer_instance

theorem hexDigit?_le (c : Char) (n : Nat) (h : hexDigit? c = some n) : n ≤ 15 := by
  unfold hexDigit? at h
  dsimp only at h
  split_ifs at h with h1 h2 h3
  · simp only [Option.some.injEq] at h
    omega
  · simp only [Option.some.injEq] at h
    omega
  · simp only [Option.some.injEq] at h
    omega

theorem isHexCh_some (c : Char) (h : isHexCh c = true) :
    ∃ n, hexDigit? c = some n ∧ n ≤ 15 := by
  unfold isHexCh at h
  obtain ⟨n, hn⟩ := Option.isSome_iff_exists.mp h
  exact ⟨n, hn, hexDigit?_le c n hn⟩

theorem pyHexInt?_pair (c d : Char) (nc nd : Nat)
    (hc : hexDigit? c = some nc) (hd : hexDigit? d = some nd) :
    pyHexInt? [c, d] = some (16 * nc + nd) := by
  simp [pyHexInt?, pyHexIntAux, hc, hd]

theorem exists_six (l : List Char) (h : l.length = 6) :
    ∃ a b c d e f : Char, l = [a, b, c, d, e, f] := by
  cases l with
  | nil => simp at h
  | cons a l1 =>
    cases l1 with
    | nil => simp at h
    | cons b l2 =>
      cases l2 with
      | nil => simp at h
      | cons c l3 =>
        cases l3 with
        | nil => simp at h
        | cons d l4 =>
          cases l4 with
          | nil => simp at h
          | cons e l5 =>
            cases l5 with
            | nil => simp at h
            | cons f l6 =>
              cases l6 with
              | nil => exact ⟨a, b, c, d, e, f, rfl⟩
              | cons g l7 => simp at h

theorem lstripHash_append_of_valid (xd td : List Char)
    (h6 : (stripOneHash xd).length = 6)
    (hhex : ∀ c ∈ stripOneHash xd, isHexCh c) :
    lstripHash (xd ++ td) = stripOneHash xd ++ td := by
  cases xd with
  | nil => simp [stripOneHash] at h6
  | cons c rest =>
    by_cases hc : c = '#'
    · subst hc
      simp only [stripOneHash, if_pos rfl] at h6 hhex ⊢
      cases rest with
      | nil => simp at h6
      | cons r0 rest' =>
        have hr0 : isHexCh r0 := hhex r0 (by simp)
        have hr0ne : r0 ≠ '#' := by
          intro hcontra
          rw [hcontra] at hr0
          exact absurd hr0 (by decide)
        simp [lstripHash, hr0ne]
    · simp only [stripOneHash, if_neg hc]
      simp [lstripHash, hc]

theorem hex_to_hsl_core_eval (l : List Char) (rn gn bn : Nat)
    (h0 : pyHexInt? (slice2 l 0) = some rn)
    (h1 : pyHexInt? (slice2 l 2) = some gn)
    (h2 : pyHexInt? (slice2 l 4) = some bn) :
    hex_to_hsl_core l = some
      { h := pyRound ((rgb_to_hls ((rn:ℚ)/255) ((gn:ℚ)/255) ((bn:ℚ)/255)).1 * 360),
        s := pyRound ((rgb_to_hls ((rn:ℚ)/255) ((gn:ℚ)/255) ((bn:ℚ)/255)).2.2 * 100),
        l := pyRound ((rgb_to_hls ((rn:ℚ)/255) ((gn:ℚ)/255) ((bn:ℚ)/255)).2.1 * 100) } := by
  unfold hex_to_hsl_core
  rw [h0, h1, h2]

/-- Every valid hex color parses to three bytes, and `hex_to_hsl` rounds the
scaled `rgb_to_hls` output of the normalised channels. -/
theorem hex_to_hsl_valid (s : String) (hv : ValidHexColor s) :
    ∃ rn gn bn : Nat, rn ≤ 255 ∧ gn ≤ 255 ∧ bn ≤ 255 ∧
      channel s 0 = some rn ∧ channel s 2 = some gn ∧ channel s 4 = some bn ∧
      hex_to_hsl s = some
        { h := pyRound ((rgb_to_hls ((rn:ℚ)/255) ((gn:ℚ)/255) ((bn:ℚ)/255)).1 * 360),
          s := pyRound ((rgb_to_hls ((rn:ℚ)/255) ((gn:ℚ)/255) ((bn:ℚ)/255)).2.2 * 100),
          l := pyRound ((rgb_to_hls ((rn:ℚ)/255) ((gn:ℚ)/255) ((bn:ℚ)/255)).2.1 * 100) } := by
  obtain ⟨h6, hhex⟩ := hv
  have hstrip : lstripHash s.data = stripOneHash s.data := by
    have h := lstripHash_append_of_valid s.data [] h6 hhex
    simpa using h
  obtain ⟨a, b, c, d, e, f, hl⟩ := exists_six _ h6
  rw [hl] at hstrip hhex
  have ha := isHexCh_some a (hhex a (by simp))
  have hb := isHexCh_some b (hhex b (by simp))
  have hc := isHexCh_some c (hhex c (by simp))
  have hd := isHexCh_some d (hhex d (by simp))
  have he := isHexCh_some e (hhex e (by simp))
  have hf := isHexCh_some f (hhex f (by simp))
  obtain ⟨na, hna, hna15⟩ := ha
  obtain ⟨nb, hnb, hnb15⟩ := hb
  obtain ⟨nc, hnc, hnc15⟩ := hc
  obtain ⟨nd, hnd, hnd15⟩ := hd
  obtain ⟨ne', hne, hne15⟩ := he
  obtain ⟨nf, hnf, hnf15⟩ := hf
  have h0 : pyHexInt? (slice2 [a, b, c, d, e, f] 0) = some (16 * na + nb) :=
    pyHexInt?_pair a b na nb hna hnb
  have h1 : pyHexInt? (slice2 [a, b, c, d, e, f] 2) = some (16 * nc + nd) :=
    pyHexInt?_pair c d nc nd hnc hnd
  have h2 : pyHexInt? (slice2 [a, b, c, d, e, f] 4) = some (16 * ne' + nf) :=
    pyHexInt?_pair e f ne' nf hne hnf
  refine ⟨16 * na + nb, 16 * nc + nd, 16 * ne' + nf,
    by omega, by omega, by omega, ?_, ?_, ?_, ?_⟩
  · unfold channel
    rw [hstrip]
    exact h0
  · unfold channel
    rw [hstrip]
    exact h1
  · unfold channel
    rw [hstrip]
    exact h2
  · unfold hex_to_hsl
    rw [hstrip]
    exact hex_to_hsl_core_eval _ _ _ _ h0 h1 h2

theorem pyRound_le (q : ℚ) (n : ℤ) (h : q ≤ (n : ℚ)) : pyRound q ≤ n := by
  have hfl : ⌊q⌋ ≤ n := by
    have := Int.floor_le_floor h
    rwa [Int.floor_intCast] at this
  have hfl2 : (⌊q⌋ : ℚ) ≤ q := Int.floor_le q
  unfold pyRound
  split_ifs with h1 h2 h3
  · exact hfl
  all_goals
    have hq : (1 : ℚ) / 2 ≤ q - (⌊q⌋ : ℚ) := not_lt.mp h1
    have hlt : (⌊q⌋ : ℚ) < (n : ℚ) := by linarith
    have : ⌊q⌋ < n := by exact_mod_cast hlt
    omega

theorem le_pyRound (q : ℚ) (n : ℤ) (h : (n : ℚ) ≤ q) : n ≤ pyRound q := by
  have hn : n ≤ ⌊q⌋ := Int.le_floor.mpr h
  unfold pyRound
  split_ifs <;> omega

theorem pyRound_eval (q : ℚ) (z : ℤ) (h0 : (z:ℚ) ≤ q) (h1 : q - (z:ℚ) < 1/2) :
    pyRound q = z := by
  have hfl : ⌊q⌋ = z := Int.floor_eq_iff.mpr ⟨h0, by linarith⟩
  unfold pyRound
  rw [hfl, if_pos h1]

/-- Evaluation scheme for `hex_to_hsl` at a concrete string: a parsed byte
triple, a computed `rgb_to_hls` tuple and the three rounded values give the
result. -/
theorem hex_to_hsl_eval (s : String) (core6 : List Char) (rn gn bn : Nat)
    (hq hl' hs' : ℚ) (zh zs zl : ℤ)
    (hstrip : lstripHash s.data = core6)
    (h0 : pyHexInt? (slice2 core6 0) = some rn)
    (h1 : pyHexInt? (slice2 core6 2) = some gn)
    (h2 : pyHexInt? (slice2 core6 4) = some bn)
    (hhls : rgb_to_hls ((rn:ℚ)/255) ((gn:ℚ)/255) ((bn:ℚ)/255) = (hq, hl', hs'))
    (hzh : pyRound (hq * 360) = zh)
    (hzs : pyRound (hs' * 100) = zs)
    (hzl : pyRound (hl' * 100) = zl) :
    hex_to_hsl s = some { h := zh, s := zs, l := zl } := by
  unfold hex_to_hsl
  rw [hstrip, hex_to_hsl_core_eval _ _ _ _ h0 h1 h2, hhls]
  dsimp only
  rw [hzh, hzs, hzl]

theorem pyMod1_nonneg (q : ℚ) : 0 ≤ pyMod1 q := by
  have := Int.floor_le q
  unfold pyMod1
  linarith

theorem pyMod1_lt_one (q : ℚ) : pyMod1 q < 1 := by
  have := Int.lt_floor_add_one q
  unfold pyMod1
  linarith

/-- For channels in `[0,1]`, `rgb_to_hls` yields `h ∈ [0,1)`, `l ∈ [0,1]`
and `s ∈ [0,1]`. -/
theorem rgb_to_hls_bounds (r g b : ℚ) (hr0 : 0 ≤ r) (hr1 : r ≤ 1)
    (hg0 : 0 ≤ g) (hg1 : g ≤ 1) (hb0 : 0 ≤ b) (hb1 : b ≤ 1) :
    0 ≤ (rgb_to_hls r g b).1 ∧ (rgb_to_hls r g b).1 < 1 ∧
      0 ≤ (rgb_to_hls r g b).2.1 ∧ (rgb_to_hls r g b).2.1 ≤ 1 ∧
      0 ≤ (rgb_to_hls r g b).2.2 ∧ (rgb_to_hls r g b).2.2 ≤ 1 := by
  have hmin0 : 0 ≤ min r (min g b) := le_min hr0 (le_min hg0 hb0)
  have hmax1 : max r (max g b) ≤ 1 := max_le hr1 (max_le hg1 hb1)
  have hmm : min r (min g b) ≤ max r (max g b) :=
    le_trans (min_le_left _ _) (le_max_left _ _)
  unfold rgb_to_hls
  by_cases heq : min r (min g b) = max r (max g b)
  · rw [if_pos heq]
    dsimp only
    refine ⟨le_refl 0, one_pos, ?_, ?_, le_refl 0, zero_le_one⟩
    · apply div_nonneg (by linarith) (by norm_num)
    · rw [div_le_one (by norm_num : (0:ℚ) < 2)]
      linarith
  · have hlt : min r (min g b) < max r (max g b) := lt_of_le_of_ne hmm heq
    have hmaxpos : 0 < max r (max g b) := lt_of_le_of_lt hmin0 hlt
    rw [if_neg heq]
    dsimp only
    refine ⟨pyMod1_nonneg _, pyMod1_lt_one _, ?_, ?_, ?_, ?_⟩
    · apply div_nonneg (by linarith) (by norm_num)
    · rw [div_le_one (by norm_num : (0:ℚ) < 2)]
      linarith
    · split_ifs with hl
      · apply div_nonneg (by linarith) (by linarith)
      · apply div_nonneg (by linarith) (by linarith)
    · split_ifs with hl
      · rw [div_le_one (by linarith)]
        linarith
      · rw [div_le_one (by linarith)]
        linarith

/-- Claim C3: for every valid hex color string (exactly 6 hex digits after an
optional leading `'#'`), `hex_to_hsl` succeeds with `h ∈ [0, 360]`,
`s ∈ [0, 100]` and `l ∈ [0, 100]`. -/
theorem c3_convert_in_range (s : String) (hv : ValidHexColor s) :
    ∃ out : HSL, hex_to_hsl s = some out ∧
      0 ≤ out.h ∧ out.h ≤ 360 ∧ 0 ≤ out.s ∧ out.s ≤ 100 ∧
      0 ≤ out.l ∧ out.l ≤ 100 := by
  obtain ⟨rn, gn, bn, hrn, hgn, hbn, -, -, -, hout⟩ := hex_to_hsl_valid s hv
  have hr0 : (0:ℚ) ≤ (rn:ℚ)/255 := by positivity
  have hg0 : (0:ℚ) ≤ (gn:ℚ)/255 := by positivity
  have hb0 : (0:ℚ) ≤ (bn:ℚ)/255 := by positivity
  have hr1 : (rn:ℚ)/255 ≤ 1 := by
    rw [div_le_one (by norm_num : (0:ℚ) < 255)]
    exact_mod_cast hrn
  have hg1 : (gn:ℚ)/255 ≤ 1 := by
    rw [div_le_one (by norm_num : (0:ℚ) < 255)]
    exact_mod_cast hgn
  have hb1 : (bn:ℚ)/255 ≤ 1 := by
    rw [div_le_one (by norm_num : (0:ℚ) < 255)]
    exact_mod_cast hbn
  obtain ⟨hh0, hh1, hl0, hl1, hs0, hs1⟩ :=
    rgb_to_hls_bounds ((rn:ℚ)/255) ((gn:ℚ)/255) ((bn:ℚ)/255) hr0 hr1 hg0 hg1 hb0 hb1
  refine ⟨_, hout, ?_, ?_, ?_, ?_, ?_, ?_⟩
  · exact le_pyRound _ 0 (by push_cast; nlinarith)
  · exact pyRound_le _ 360 (by push_cast; nlinarith)
  · exact le_pyRound _ 0 (by push_cast; nlinarith)
  · exact pyRound_le _ 100 (by push_cast; nlinarith)
  · exact le_pyRound _ 0 (by push_cast; nlinarith)
  · exact pyRound_le _ 100 (by push_cast; nlinarith)

theorem c3_convert_in_range_w :
    ValidHexColor "#1A2B3C" ∧
      ∃ out : HSL, hex_to_hsl "#1A2B3C" = some out ∧
        0 ≤ out.h ∧ out.h ≤ 360 ∧ 0 ≤ out.s ∧ out.s ≤ 100 ∧
        0 ≤ out.l ∧ out.l ≤ 100 :=
  ⟨by decide, c3_convert_in_range "#1A2B3C" (by decide)⟩

/-- Claim C4: every achromatic valid hex color (all three channel bytes
equal) converts to hue 0 and saturation 0, with lightness computed from the
shared channel value; in particular pure black gives `{0, 0, 0}` and pure
white gives `{0, 0, 100}`. -/
theorem c4_achromatic :
    (∀ s : String, ValidHexColor s → channel s 0 = channel s 2 →
      channel s 2 = channel s 4 →
      ∃ n : Nat, channel s 0 = some n ∧
        hex_to_hsl s = some { h := 0, s := 0, l := pyRound ((n:ℚ)/255 * 100) }) ∧
    hex_to_hsl "#000000" = some { h := 0, s := 0, l := 0 } ∧
    hex_to_hsl "#FFFFFF" = some { h := 0, s := 0, l := 100 } := by
  refine ⟨?_, ?_, ?_⟩
  case refine_2 =>
    exact hex_to_hsl_eval "#000000" "000000".data 0 0 0 0 0 0 0 0 0
      (by decide) (by decide) (by decide) (by decide)
      (by norm_num [rgb_to_hls, min_def, max_def])
      (by apply pyRound_eval <;> push_cast <;> norm_num)
      (by apply pyRound_eval <;> push_cast <;> norm_num)
      (by apply pyRound_eval <;> push_cast <;> norm_num)
  case refine_3 =>
    exact hex_to_hsl_eval "#FFFFFF" "FFFFFF".data 255 255 255 0 1 0 0 0 100
      (by decide) (by decide) (by decide) (by decide)
      (by norm_num [rgb_to_hls, min_def, max_def])
      (by apply pyRound_eval <;> push_cast <;> norm_num)
      (by apply pyRound_eval <;> push_cast <;> norm_num)
      (by apply pyRound_eval <;> push_cast <;> norm_num)
  intro s hv h02 h24
  obtain ⟨rn, gn, bn, hrn, hgn, hbn, hc0, hc2, hc4, hout⟩ := hex_to_hsl_valid s hv
  rw [hc0, hc2] at h02
  rw [hc2, hc4] at h24
  obtain rfl : rn = gn := Option.some.inj h02
  obtain rfl : rn = bn := Option.some.inj h24
  refine ⟨rn, hc0, ?_⟩
  rw [hout]
  have hach : rgb_to_hls ((rn:ℚ)/255) ((rn:ℚ)/255) ((rn:ℚ)/255)
      = (0, (rn:ℚ)/255, 0) := by
    unfold rgb_to_hls
    rw [min_self, min_self, max_self, max_self, if_pos rfl]
    ring_nf
  rw [hach]
  have hz : pyRound ((0:ℚ) * 360) = 0 := by norm_num [pyRound]
  have hz' : pyRound ((0:ℚ) * 100) = 0 := by norm_num [pyRound]
  simp only [hz, hz']

theorem c4_achromatic_w :
    (ValidHexColor "#7F7F7F" ∧ channel "#7F7F7F" 0 = channel "#7F7F7F" 2 ∧
      channel "#7F7F7F" 2 = channel "#7F7F7F" 4) ∧
    ∃ n : Nat, channel "#7F7F7F" 0 = some n ∧
      hex_to_hsl "#7F7F7F" = some { h := 0, s := 0, l := pyRound ((n:ℚ)/255 * 100) } :=
  ⟨⟨by decide, by decide, by decide⟩,
    c4_achromatic.1 "#7F7F7F" (by decide) (by decide) (by decide)⟩

/-- Claim C5: the three pure primaries convert exactly:
red to `{0, 100, 50}`, green to `{120, 100, 50}`, blue to `{240, 100, 50}`. -/
theorem c5_primaries :
    hex_to_hsl "#FF0000" = some { h := 0, s := 100, l := 50 } ∧
    hex_to_hsl "#00FF00" = some { h := 120, s := 100, l := 50 } ∧
    hex_to_hsl "#0000FF" = some { h := 240, s := 100, l := 50 } := by
  have hf0 : ⌊(0:ℚ)⌋ = 0 := Int.floor_zero
  have hf3 : ⌊(1/3:ℚ)⌋ = 0 := by rw [Int.floor_eq_iff]; norm_num
  have hf6 : ⌊(2/3:ℚ)⌋ = 0 := by rw [Int.floor_eq_iff]; norm_num
  refine ⟨?_, ?_, ?_⟩
  · exact hex_to_hsl_eval "#FF0000" "FF0000".data 255 0 0 0 (1/2) 1 0 100 50
      (by decide) (by decide) (by decide) (by decide)
      (by norm_num [rgb_to_hls, min_def, max_def, pyMod1, hf0])
      (by apply pyRound_eval <;> push_cast <;> norm_num)
      (by apply pyRound_eval <;> push_cast <;> norm_num)
      (by apply pyRound_eval <;> push_cast <;> norm_num)
  · exact hex_to_hsl_eval "#00FF00" "00FF00".data 0 255 0 (1/3) (1/2) 1 120 100 50
      (by decide) (by decide) (by decide) (by decide)
      (by norm_num [rgb_to_hls, min_def, max_def, pyMod1, hf3])
      (by apply pyRound_eval <;> push_cast <;> norm_num)
      (by apply pyRound_eval <;> push_cast <;> norm_num)
      (by apply pyRound_eval <;> push_cast <;> norm_num)
  · exact hex_to_hsl_eval "#0000FF" "0000FF".data 0 0 255 (2/3) (1/2) 1 240 100 50
      (by decide) (by decide) (by decide) (by decide)
      (by norm_num [rgb_to_hls, min_def, max_def, pyMod1, hf6])
      (by apply pyRound_eval <;> push_cast <;> norm_num)
      (by apply pyRound_eval <;> push_cast <;> norm_num)
      (by apply pyRound_eval <;> push_cast <;> norm_num)

/-- Claim C2: the derived saturation is the clamp of the input saturation to
`[30, 100]`: below 30 it is raised to 30, inside the range it is kept, above
100 it is capped at 100. -/
theorem c2_derive_saturation_clamp (hsl : HSL) :
    (derive hsl).saturation =
      if hsl.s < 30 then 30 else if hsl.s ≤ 100 then hsl.s else 100 := by
  simp only [derive]
  split_ifs <;> omega

/-- Claim C6: the hue field of `derive`'s output is the input hue, unchanged. -/
theorem c6_hue_passthrough (hsl : HSL) : (derive hsl).hue = hsl.h := rfl

/-- Claim C7: `derive` is total: for every integer HSL input, in range or not,
it returns a result (and that result's saturation lies in `[30, 100]`, which
is why the clamp can never fail). -/
theorem c7_derive_total (hsl : HSL) :
    ∃ tv : ThemeParameters, derive hsl = tv ∧
      30 ≤ tv.saturation ∧ tv.saturation ≤ 100 := by
  refine ⟨derive hsl, rfl, ?_, ?_⟩ <;> simp only [derive] <;> omega

theorem dictGet_setAll_self (fields : List (String × JValue)) (k : String) (v : JValue)
    (hmem : hasKey fields k = true) :
    dictGet (setAll fields k v) k = some v := by
  induction fields with
  | nil => simp [hasKey] at hmem
  | cons p rest ih =>
    by_cases h : p.1 = k
    · simp [setAll, dictGet, h]
    · have hrest : hasKey rest k = true := by
        simp only [hasKey, Bool.or_eq_true, beq_iff_eq] at hmem
        exact hmem.resolve_left h
      simpa [setAll, dictGet, h] using ih hrest

theorem dictGet_setAll_other (fields : List (String × JValue)) (k k' : String)
    (v : JValue) (hne : k' ≠ k) :
    dictGet (setAll fields k v) k' = dictGet fields k' := by
  induction fields with
  | nil => rfl
  | cons p rest ih =>
    by_cases h : p.1 = k
    · have hkk : ¬(k = k') := fun hcontra => hne hcontra.symm
      have hpk : ¬(p.1 = k') := by rw [h]; exact hkk
      simpa [setAll, dictGet, h, hkk, hpk] using ih
    · by_cases h' : p.1 = k'
      · simp [setAll, dictGet, h, h', hne]
      · simpa [setAll, dictGet, h, h'] using ih

theorem dictGet_append_self_of_absent (fields : List (String × JValue)) (k : String)
    (v : JValue) (hmem : hasKey fields k = false) :
    dictGet (fields ++ [(k, v)]) k = some v := by
  induction fields with
  | nil => simp [dictGet]
  | cons p rest ih =>
    simp only [hasKey, Bool.or_eq_false_iff, beq_eq_false_iff_ne, ne_eq] at hmem
    simpa [dictGet, hmem.1] using ih hmem.2

theorem dictGet_append_other (fields : List (String × JValue)) (k k' : String)
    (v : JValue) (hne : k' ≠ k) :
    dictGet (fields ++ [(k, v)]) k' = dictGet fields k' := by
  induction fields with
  | nil =>
    have hkk : ¬(k = k') := fun hcontra => hne hcontra.symm
    simp [dictGet, hkk]
  | cons p rest ih =>
    by_cases h : p.1 = k'
    · simp [dictGet, h]
    · simpa [dictGet, h] using ih

theorem dictGet_dictSet_self (fields : List (String × JValue)) (k : String)
    (v : JValue) : dictGet (dictSet fields k v) k = some v := by
  unfold dictSet
  by_cases hmem : hasKey fields k = true
  · rw [if_pos hmem]
    exact dictGet_setAll_self fields k v hmem
  · rw [if_neg hmem]
    exact dictGet_append_self_of_absent fields k v (by simpa using hmem)

theorem dictGet_dictSet_other (fields : List (String × JValue)) (k k' : String)
    (v : JValue) (hne : k' ≠ k) :
    dictGet (dictSet fields k v) k' = dictGet fields k' := by
  unfold dictSet
  by_cases hmem : hasKey fields k = true
  · rw [if_pos hmem]
    exact dictGet_setAll_other fields k k' v hne
  · rw [if_neg hmem]
    exact dictGet_append_other fields k k' v hne

/-- Claim C10: when `update_colors` succeeds, the whole "colors" entry of the
configuration object is replaced with `{"extracted": {"h": hue, "s": sat}}`
(discarding every key previously nested under "colors"), while every other
top-level key keeps its previous value. -/
theorem c10_update_colors_frame (config : JValue) (tv : ThemeParameters)
    (out : JValue) (hup : update_colors config tv = some out) :
    ∃ fields outFields, config = .obj fields ∧ out = .obj outFields ∧
      dictGet outFields "colors" = some (.obj [("extracted",
        .obj [("h", .num (tv.hue : ℚ)), ("s", .num (tv.saturation : ℚ))])]) ∧
      ∀ k, k ≠ "colors" → dictGet outFields k = dictGet fields k := by
  cases config with
  | obj fields =>
    have hout : out = .obj (dictSet fields "colors" (extractedObj tv)) :=
      (Option.some.inj hup).symm
    refine ⟨fields, dictSet fields "colors" (extractedObj tv), rfl, hout, ?_, ?_⟩
    · rw [dictGet_dictSet_self]
      rfl
    · intro k hk
      exact dictGet_dictSet_other fields "colors" k (extractedObj tv) hk
  | null => simp [update_colors] at hup
  | bool b => simp [update_colors] at hup
  | num q => simp [update_colors] at hup
  | str s => simp [update_colors] at hup
  | arr elems => simp [update_colors] at hup

theorem c10_update_colors_frame_w :
    update_colors
        (.obj [("font", .str "Inter"), ("colors", .obj [("old", .num 1)])])
        { hue := 210, saturation := 30 }
      = some (.obj (dictSet [("font", .str "Inter"),
          ("colors", .obj [("old", .num 1)])] "colors"
          (extractedObj { hue := 210, saturation := 30 }))) ∧
    ∃ fields outFields,
      JValue.obj [("font", .str "Inter"), ("colors", .obj [("old", .num 1)])]
          = .obj fields ∧
      JValue.obj (dictSet [("font", .str "Inter"),
          ("colors", .obj [("old", .num 1)])] "colors"
          (extractedObj { hue := 210, saturation := 30 })) = .obj outFields ∧
      dictGet outFields "colors" = some (.obj [("extracted",
        .obj [("h", .num ((210:ℤ) : ℚ)), ("s", .num ((30:ℤ) : ℚ))])]) ∧
      ∀ k, k ≠ "colors" → dictGet outFields k = dictGet fields k :=
  ⟨rfl,
    c10_update_colors_frame
      (.obj [("font", .str "Inter"), ("colors", .obj [("old", .num 1)])])
      { hue := 210, saturation := 30 }
      (.obj (dictSet [("font", .str "Inter"), ("colors", .obj [("old", .num 1)])]
        "colors" (extractedObj { hue := 210, saturation := 30 })))
      rfl⟩

/-- Claim C1 counterexample: the input "12345" is not exactly 6 hex digits,
yet `hex_to_hsl` does not fail on it: the slices at offsets 0, 2, 4 are
"12", "34" and "5", and Python's `int("5", 16)` succeeds. -/
theorem c1_counterexample : hex_to_hsl "12345" ≠ none := by
  have h := hex_to_hsl_core_eval "12345".data 18 52 5 (by decide) (by decide) (by decide)
  unfold hex_to_hsl
  rw [show lstripHash "12345".data = "12345".data from by decide, h]
  exact Option.some_ne_none _

/-- Claim C1 amended: `convert("")` and `convert("#ZZZZZZ")` each fail (with
a `ValueError` from `int`; the code defines no `MalformedColorError`), but
`convert("12345")` succeeds, since its slice at offset 4 is the single valid
hex digit "5" - so it is not the case that every input other than 6 hex
digits after an optional `'#'` is rejected. -/
theorem c1_amended :
    hex_to_hsl "" = none ∧ hex_to_hsl "#ZZZZZZ" = none ∧
    (hex_to_hsl "12345").isSome = true := by
  refine ⟨by decide, by decide, ?_⟩
  have h := hex_to_hsl_core_eval "12345".data 18 52 5 (by decide) (by decide) (by decide)
  unfold hex_to_hsl
  rw [show lstripHash "12345".data = "12345".data from by decide, h]
  rfl

/-- Claim C9: every character after the sixth hex digit is ignored: appending
any suffix to a valid hex color leaves the (successful) conversion unchanged,
because only the 2-character slices at offsets 0, 2 and 4 of the stripped
string are parsed. -/
theorem c9_suffix_ignored (x t : String) (hv : ValidHexColor x) :
    hex_to_hsl (x ++ t) = hex_to_hsl x ∧ (hex_to_hsl x).isSome = true := by
  obtain ⟨h6, hhex⟩ := hv
  have hdata : (x ++ t).data = x.data ++ t.data := by
    cases x
    cases t
    rfl
  have hstrip2 : lstripHash (x.data ++ t.data) = stripOneHash x.data ++ t.data :=
    lstripHash_append_of_valid x.data t.data h6 hhex
  have hstrip1 : lstripHash x.data = stripOneHash x.data := by
    have h := lstripHash_append_of_valid x.data [] h6 hhex
    simpa using h
  obtain ⟨a, b, c, d, e, f, hl⟩ := exists_six _ h6
  rw [hl] at hhex
  obtain ⟨na, hna, -⟩ := isHexCh_some a (hhex a (by simp))
  obtain ⟨nb, hnb, -⟩ := isHexCh_some b (hhex b (by simp))
  obtain ⟨nc', hnc, -⟩ := isHexCh_some c (hhex c (by simp))
  obtain ⟨nd, hnd, -⟩ := isHexCh_some d (hhex d (by simp))
  obtain ⟨ne', hne, -⟩ := isHexCh_some e (hhex e (by simp))
  obtain ⟨nf, hnf, -⟩ := isHexCh_some f (hhex f (by simp))
  constructor
  · unfold hex_to_hsl
    rw [hdata, hstrip2, hstrip1, hl]
    have e0 : slice2 ([a, b, c, d, e, f] ++ t.data) 0 = slice2 [a, b, c, d, e, f] 0 := rfl
    have e1 : slice2 ([a, b, c, d, e, f] ++ t.data) 2 = slice2 [a, b, c, d, e, f] 2 := rfl
    have e2 : slice2 ([a, b, c, d, e, f] ++ t.data) 4 = slice2 [a, b, c, d, e, f] 4 := rfl
    unfold hex_to_hsl_core
    rw [e0, e1, e2]
  · have p0 : pyHexInt? (slice2 [a, b, c, d, e, f] 0) = some (16 * na + nb) :=
      pyHexInt?_pair a b na nb hna hnb
    have p1 : pyHexInt? (slice2 [a, b, c, d, e, f] 2) = some (16 * nc' + nd) :=
      pyHexInt?_pair c d nc' nd hnc hnd
    have p2 : pyHexInt? (slice2 [a, b, c, d, e, f] 4) = some (16 * ne' + nf) :=
      pyHexInt?_pair e f ne' nf hne hnf
    unfold hex_to_hsl
    rw [hstrip1, hl, hex_to_hsl_core_eval _ _ _ _ p0 p1 p2]
    rfl

theorem c9_suffix_ignored_w :
    ValidHexColor "#AABBCC" ∧
      hex_to_hsl ("#AABBCC" ++ "xyz") = hex_to_hsl "#AABBCC" ∧
      (hex_to_hsl "#AABBCC").isSome = true :=
  ⟨by decide, (c9_suffix_ignored "#AABBCC" "xyz" (by decide)).1,
    (c9_suffix_ignored "#AABBCC" "xyz" (by decide)).2⟩

/-- Claim C8: `derive` is idempotent on its own output: feeding the produced
`{hue, saturation}` back in as an HSL-shaped value (with any lightness) gives
the same saturation, since the produced saturation already lies in `[30,100]`. -/
theorem c8_derive_idempotent (hsl : HSL) (l' : ℤ) :
    (derive { h := (derive hsl).hue, s := (derive hsl).saturation, l := l' }).saturation
      = (derive hsl).saturation := by
  simp only [derive]
  omega

end Chromaflow
